import Mathlib

/-!
# Verification of the Smart Vending ATX transaction-reconciliation core

A shallow embedding of the reconciliation pipeline implemented in
`vendsoft_processor.py` (class `VendSoftProcessor`), together with the
variant call sites `process_supabase_upload.py`, `api/process_supabase_upload.py`,
`process_data.py` and `import_transactions.py`.

Modelling conventions:
* Money and quantities are exact rationals (`ℚ`); Python `round(x, n)` is
  modelled by `roundTo n` (round to nearest, `Mathlib`'s `round` on `ℚ`).
  Float representation artifacts are out of scope.
* Text is Lean `String`; the character-level operations used by the code
  (`str.strip`, `str.lower`, the regexes `[^a-z0-9]`, `\[(\d+)\]`,
  `^\[\d+\]\s*`, `\s*\d{4}$`, `\[.*?\]\s*(.+)` and `\s+`) are implemented
  directly on the underlying character lists.
* A pandas cell that may be NaN/empty is an `Option`; `pd.to_numeric(...,
  errors="coerce")` results are `Option ℚ` (`none` = unparseable),
  `fillna(d)` is `Option.getD d`.
* A Python `dict` is an association list queried by `lookupDict`; entries
  are pushed to the front so that a later assignment to the same key
  shadows an earlier one, exactly like dict assignment.
* A parsed timestamp is `Option Ts` (`none` = `pd.to_datetime` coerced to
  NaT); `strftime("%Y-%m-%dT%H:%M")` is `Ts.fmtMinute`, which drops the
  seconds (minute truncation).
* The expression `(direct+family)/len(output_df)*100` on line 309 of
  `vendsoft_processor.py` divides by a Python `int`; division by zero
  raises there, which we model with an `Option ℚ` result (`none` =
  `ZeroDivisionError`).
-/

namespace SmartVending

/-! ## Character and string primitives -/

/-- Whitespace characters recognised by Python `str.strip` / `\s` (ASCII part). -/
def isWsChar (c : Char) : Bool :=
  c = ' ' || c = '\t' || c = '\n' || c = '\r' || c = '\x0b' || c = '\x0c'

/-- The character class `[a-z0-9]` of the normalisation regexes. -/
def isLowerAlnum (c : Char) : Bool :=
  ('a' ≤ c && c ≤ 'z') || ('0' ≤ c && c ≤ '9')

/-- The character class `\d`. -/
def isDigitChar (c : Char) : Bool := '0' ≤ c && c ≤ '9'

/-- Remove leading and trailing whitespace from a character list. -/
def trimChars (l : List Char) : List Char :=
  ((l.dropWhile isWsChar).reverse.dropWhile isWsChar).reverse

/-- Python `str.strip()`. -/
def strip (s : String) : String := ⟨trimChars s.data⟩

/-- Python `str.lower()` (ASCII behaviour). -/
def lowerStr (s : String) : String := ⟨s.data.map Char.toLower⟩

/-- Python `re.sub(r"[^a-z0-9]", "", s)`: keep only lower-case ASCII
letters and digits. -/
def stripNonAlnum (s : String) : String := ⟨s.data.filter isLowerAlnum⟩

/-- Python `re.search(r"\[(\d+)\]", s)`: the digits of the first bracketed
integer, scanning start positions left to right; a match must start at a
`[` directly followed by one or more digits and then `]`. -/
def bracketNum : List Char → Option (List Char)
  | [] => none
  | '[' :: rest =>
      let ds := rest.takeWhile isDigitChar
      match rest.dropWhile isDigitChar with
      | ']' :: _ => if ds.isEmpty then bracketNum rest else some ds
      | _ => bracketNum rest
  | _ :: rest => bracketNum rest

/-- Whether a string contains a `[digits]` substring. -/
def containsBracketDigits (s : String) : Bool := (bracketNum s.data).isSome

/-- Python `re.sub(r"^\[\d+\]\s*", "", s)`: drop one leading bracketed
integer together with the whitespace that follows it. -/
def stripLeadingBracket (s : String) : String :=
  match s.data with
  | '[' :: rest =>
      let ds := rest.takeWhile isDigitChar
      match rest.dropWhile isDigitChar with
      | ']' :: tail => if ds.isEmpty then s else ⟨tail.dropWhile isWsChar⟩
      | _ => s
  | _ => s

/-- Python `re.sub(r"\s*\d{4}$", "", s)`: if the string ends in four
digits, drop those four digits and the maximal whitespace run before
them. -/
def stripTrailing4 (s : String) : String :=
  let r := s.data.reverse
  if (r.take 4).length = 4 && (r.take 4).all isDigitChar then
    ⟨((r.drop 4).dropWhile isWsChar).reverse⟩
  else s

/-- Helper of `collapseWs`: `prevWs` records whether the previous
character was whitespace (already emitted as the single `' '` of its
run). -/
def collapseWsAux (prevWs : Bool) : List Char → List Char
  | [] => []
  | c :: rest =>
      if isWsChar c then
        if prevWs then collapseWsAux true rest
        else ' ' :: collapseWsAux true rest
      else c :: collapseWsAux false rest

/-- Python `re.sub(r"\s+", " ", s)`: collapse every whitespace run to a
single space. -/
def collapseWs (l : List Char) : List Char := collapseWsAux false l

/-- Helper of `afterBracket`: the suffix following the first `]`, provided
that suffix is non-empty. -/
def tailAfterClose : List Char → Option (List Char)
  | [] => none
  | ']' :: tail => if tail.isEmpty then none else some tail
  | _ :: rest => tailAfterClose rest

/-- Python `re.search(r"\[.*?\]\s*(.+)", s)` up to the final `.strip()`
applied to group 1: the text after the first viable bracketed group (a `[`
having some `]` after it with at least one further character).  Because
the caller strips the group, `\s*` backtracking is absorbed into the final
`strip`. -/
def afterBracket : List Char → Option (List Char)
  | [] => none
  | '[' :: rest =>
      match tailAfterClose rest with
      | some tail => some tail
      | none => afterBracket rest
  | _ :: rest => afterBracket rest

/-! ## Rounding and numeric parsing -/

/-- Python `round(x, n)` on exact rationals: round to nearest at `n`
decimal places. -/
def roundTo (n : ℕ) (q : ℚ) : ℚ := (round (q * (10 : ℚ) ^ n) : ℤ) / (10 : ℚ) ^ n

/-- Round to 2 decimals (money). -/
def round2 (q : ℚ) : ℚ := roundTo 2 q

/-- Round to 1 decimal (the reporting margin precision). -/
def round1 (q : ℚ) : ℚ := roundTo 1 q

/-- Render a natural number zero-padded to (at least) `w` digits,
mirroring `strftime` field padding. -/
def padNat (w : ℕ) (n : ℕ) : String :=
  let s := toString n
  ⟨List.replicate (w - s.length) '0'⟩ ++ s

/-- A successfully parsed timestamp (`pd.to_datetime` result). -/
structure Ts where
  year : ℕ
  month : ℕ
  day : ℕ
  hour : ℕ
  minute : ℕ
  second : ℕ
  deriving DecidableEq

/-- Python `timestamp.strftime("%Y-%m-%dT%H:%M")`: minute-precision rendering —
the seconds field is dropped, i.e. the timestamp is truncated to the
minute. -/
def Ts.fmtMinute (t : Ts) : String :=
  padNat 4 t.year ++ "-" ++ padNat 2 t.month ++ "-" ++ padNat 2 t.day ++ "T" ++
    padNat 2 t.hour ++ ":" ++ padNat 2 t.minute

/-- Render a 2-decimal rational the way Python prints the corresponding
float inside an f-string (`"2.5"`, `"2.0"`, `"0.25"`): integer part, dot,
fractional digits with one trailing zero kept when the value is integral.
Only used on outputs of `round2`. -/
def renderMoney (q : ℚ) : String :=
  let sign := if q < 0 then "-" else ""
  let c : ℤ := round (|q| * 100)
  let ip := c / 100
  let fr := (c % 100).toNat
  let frS :=
    if fr = 0 then "0"
    else if fr % 10 = 0 then toString (fr / 10)
    else if fr < 10 then "0" ++ toString fr
    else toString fr
  sign ++ toString ip ++ "." ++ frS

/-! ## Dictionaries (Python `dict` as association list) -/

/-- Lookup in an association list whose most recent insertion is at the
front (so a later `d[k] = v` shadows an earlier one, like dict
assignment). -/
def lookupDict {α : Type} (m : List (String × α)) (k : String) : Option α :=
  match m with
  | [] => none
  | (k', v) :: rest => if k' = k then some v else lookupDict rest k

/-- Assignment `d[k] = v` with front-insertion shadowing. -/
def insertDict {α : Type} (m : List (String × α)) (k : String) (v : α) :
    List (String × α) := (k, v) :: m

/-! ## Data model

`RawRow` is one data row of the 9-column transaction log after the pandas
parsing steps of `process_transactions` (`pd.to_datetime` on `Timestamp`,
raw string cells for `Location`/`Machine`/`Product`, `pd.to_numeric` views
of `Quantity`/`Total`).  `SkuRow` is one row of the SKU mapping workbook
with `Cost` already passed through `_parse_cost`. -/

structure RawRow where
  timestamp : Option Ts
  location : Option String
  machine : String
  product : String
  quantity : Option ℚ
  total : Option ℚ
  deriving DecidableEq

structure SkuRow where
  master_SKU : String
  master_Name : Option String
  product_Family : Option String
  type : Option String
  cantaloupe_Name : Option String
  haha_AI_Name : Option String
  nayax_Name : Option String
  cost : ℚ
  deriving DecidableEq

/-- The per-SKU detail record stored in `self.sku_details`. -/
structure SkuDetails where
  master_Name : Option String
  product_Family : Option String
  type : Option String
  cost : ℚ
  deriving DecidableEq

/-- Result record of `VendSoftProcessor._map_product`. -/
structure MapResult where
  master_SKU : String
  master_Name : Option String
  product_Family : Option String
  type : Option String
  cost : ℚ
  mapping_tier : String
  deriving DecidableEq

/-- One output row of `process_transactions` (the Canonical Transaction;
the `date` column, a pure projection of the timestamp, is kept as the
timestamp itself). -/
structure Txn where
  timestamp : Option Ts
  location : String
  master_SKU : String
  master_Name : Option String
  product_Family : Option String
  type : Option String
  revenue : ℚ
  cost : ℚ
  quantity : ℚ
  profit : ℚ
  gross_margin_percent : ℚ
  mapping_tier : String
  deriving DecidableEq

/-- The mutable `self.stats` dictionary. -/
structure Stats where
  raw_transactions : ℕ
  duplicates_removed : ℕ
  direct_mapped : ℕ
  family_mapped : ℕ
  unmapped : ℕ
  total_revenue : ℚ
  unmapped_revenue : ℚ
  deriving DecidableEq

def initStats : Stats := ⟨0, 0, 0, 0, 0, 0, 0⟩

/-! ## Catalog ingestion (`VendSoftProcessor._load_mappings`) -/

/-- The Tier-1 dict `self.direct_mapping`: for each workbook row, each
present alias column (`Cantaloupe_Name`, `Master_Name`, `Haha_AI_Name`,
`Nayax_Name`) is assigned the row's `Master_SKU`; later assignments
shadow earlier ones. -/
def buildDirectMapping (cat : List SkuRow) : List (String × String) :=
  cat.foldl (fun m row =>
    let m := match row.cantaloupe_Name with
      | some n => insertDict m n row.master_SKU
      | none => m
    let m := match row.master_Name with
      | some n => insertDict m n row.master_SKU
      | none => m
    let m := match row.haha_AI_Name with
      | some n => insertDict m n row.master_SKU
      | none => m
    match row.nayax_Name with
      | some n => insertDict m n row.master_SKU
      | none => m) []

/-- The dict `self.sku_details` (later rows with the same `Master_SKU`
shadow earlier ones). -/
def buildSkuDetails (cat : List SkuRow) : List (String × SkuDetails) :=
  cat.foldl (fun m row =>
    insertDict m row.master_SKU
      ⟨row.master_Name, row.product_Family, row.type, row.cost⟩) []

/-- The rows of `sku_df.groupby("Product_Family")` for a given family
(original workbook order; NaN families are excluded by groupby). -/
def familyRows (cat : List SkuRow) (fam : String) : List SkuRow :=
  cat.filter (fun row => row.product_Family = some fam)

/-- Count how often a value occurs in a list. -/
def countOcc (l : List String) (x : String) : ℕ := (l.filter (· = x)).length

/-- Lexicographic (code-point) order on character lists — the order
Python uses to compare strings and pandas uses to sort mode values. -/
def charListLt : List Char → List Char → Bool
  | [], [] => false
  | [], _ :: _ => true
  | _ :: _, [] => false
  | a :: as, b :: bs => if a < b then true else if b < a then false else charListLt as bs

def strLtB (a b : String) : Bool := charListLt a.data b.data

/-- One step of the mode selection: keep the candidate of larger
multiplicity; on a tie keep the lexicographically smaller one. -/
def pickStep (l : List String) (best : Option String) (x : String) :
    Option String :=
  match best with
  | none => some x
  | some b =>
      if countOcc l b < countOcc l x then some x
      else if countOcc l x = countOcc l b && strLtB x b then some x
      else some b

/-- Pandas `series.mode()[0]` on a list of non-null values: pandas returns the
modal values sorted ascending, so the result is the lexicographically
least value among those of maximal multiplicity (`none` on an empty
list). -/
def pickMode (l : List String) : Option String := l.foldl (pickStep l) none

/-- Candidate `b` is at least as good a mode candidate as `x`: strictly more
occurrences, or equally many and not lexicographically greater. -/
def goodAgainst (l : List String) (b x : String) : Prop :=
  countOcc l x < countOcc l b ∨ (countOcc l x = countOcc l b ∧ strLtB x b = false)

/-- The per-family record stored in `self.family_mapping`:
`avg_cost = round(np.mean([c > 0]), 2)` (0 when no positive cost) and
`type = group["Type"].mode()[0]` (`"Unknown"` when all types are null). -/
structure FamilyInfo where
  avg_cost : ℚ
  type : String
  deriving DecidableEq

/-- Arithmetic mean of the positive costs of a group, 0 if none. -/
def meanPosCost (rows : List SkuRow) : ℚ :=
  let valid := (rows.map SkuRow.cost).filter (fun c => 0 < c)
  if valid.isEmpty then 0 else (valid.foldr (· + ·) 0) / valid.length

/-- Lookup `self.family_mapping[fam]` (`none` when no workbook row carries the
family, i.e. the key is absent). -/
def familyInfo (cat : List SkuRow) (fam : String) : Option FamilyInfo :=
  let grp := familyRows cat fam
  if grp.isEmpty then none
  else
    some
      { avg_cost := round2 (meanPosCost grp)
        type := (pickMode (grp.filterMap SkuRow.type)).getD "Unknown" }

/-- The non-null `Type` cells of a family's catalog rows, in catalog
order — the series whose mode `_load_mappings` takes. -/
def familyTypes (cat : List SkuRow) (fam : String) : List String :=
  (familyRows cat fam).filterMap SkuRow.type

/-- All loaded mapping state of a `VendSoftProcessor` instance. -/
structure Mappings where
  locationMap : List (String × String)
  catalog : List SkuRow

/-! ## Deduplication (`VendSoftProcessor._create_dedup_key` and the
`drop_duplicates(subset="dedup_key", keep="first")` step) -/

/-- Method `VendSoftProcessor._create_dedup_key`, line by line:
timestamp at minute precision (`"unknown"` if unparseable), machine id
(bracketed integer if present, else the lower-cased machine with all
non-alphanumerics stripped), normalised product, total rounded to 2
decimals.  A NaN `Total` cell prints as `"nan"`. -/
def dedupKey (r : RawRow) : String :=
  let tsStr := match r.timestamp with
    | none => "unknown"
    | some t => t.fmtMinute
  let machine := strip r.machine
  let machineId := match bracketNum machine.data with
    | some ds => String.mk ds
    | none => stripNonAlnum (lowerStr machine)
  let product := stripNonAlnum (lowerStr r.product)
  let totalStr := match r.total with
    | some q => renderMoney (round2 q)
    | none => "nan"
  tsStr ++ "_" ++ machineId ++ "_" ++ product ++ "_" ++ totalStr

/-- Pandas `df.drop_duplicates(subset=key, keep="first")`, implemented as pandas
does: scan forward keeping a set of the keys already seen. -/
def dropDupsAux {α β : Type} [DecidableEq β] (key : α → β) (seen : List β) :
    List α → List α
  | [] => []
  | r :: rs =>
      if key r ∈ seen then dropDupsAux key seen rs
      else r :: dropDupsAux key (key r :: seen) rs

def dropDups {α β : Type} [DecidableEq β] (key : α → β) (rows : List α) :
    List α := dropDupsAux key [] rows

/-! ## Location cleanup (`VendSoftProcessor._clean_location`) -/

/-- Python `str(location).strip()` where the cell may be NaN: `str(nan)` is the
literal `"nan"`. -/
def locCellStr (loc : Option String) : String :=
  match loc with
  | none => "nan"
  | some s => strip s

/-- The fallback cleanup: drop a `[digits]` prefix, then a trailing
4-digit run. -/
def locationHeuristic (machineStr : String) : String :=
  stripTrailing4 (stripLeadingBracket machineStr)

/-- Method `VendSoftProcessor._clean_location` (identical to `clean_location` in
`process_supabase_upload.py` and `api/process_supabase_upload.py`). -/
def cleanLocation (locMap : List (String × String)) (location : Option String)
    (machine : String) : String :=
  let locationStr := locCellStr location
  match lookupDict locMap locationStr with
  | some d => d
  | none =>
      let machineStr := strip machine
      match lookupDict locMap machineStr with
      | some d => d
      | none =>
          let cleaned := locationHeuristic machineStr
          if cleaned = "" then locationStr else cleaned

/-! ## Product mapping (`VendSoftProcessor._map_product`), with the
statistics side effects threaded explicitly -/

/-- Method `VendSoftProcessor._map_product`: three tiers, first match wins, with
the `self.stats[...] += 1` updates of each tier. -/
def mapProductS (maps : Mappings) (stats : Stats) (productName : String) :
    Stats × MapResult :=
  let productStr := strip productName
  match lookupDict (buildDirectMapping maps.catalog) productStr with
  | some masterSku =>
      let res : MapResult :=
        match lookupDict (buildSkuDetails maps.catalog) masterSku with
        | some d => ⟨masterSku, d.master_Name, d.product_Family, d.type, d.cost, "direct"⟩
        | none =>
            -- `details = {}`: every `.get` falls back to its default
            ⟨masterSku, some productStr, some "", some "", 0, "direct"⟩
      ({ stats with direct_mapped := stats.direct_mapped + 1 }, res)
  | none =>
      match familyInfo maps.catalog productStr with
      | some fi =>
          ({ stats with family_mapped := stats.family_mapped + 1 },
           ⟨"FAMILY_" ++ ⟨productStr.data.map
               (fun c => if c = ' ' then '_' else c.toUpper)⟩,
            some productStr, some productStr, some fi.type, fi.avg_cost, "family"⟩)
      | none =>
          ({ stats with unmapped := stats.unmapped + 1 },
           ⟨"UNMAPPED", some productStr, some "Unmapped", some "Unknown", 0, "unmapped"⟩)

/-! ## Financial columns and the pipeline (`process_transactions`) -/

/-- The per-row financial computation of lines 283–291:
`revenue = to_numeric(Total).fillna(0)`, `quantity =
to_numeric(Quantity).fillna(1)`, `profit = (revenue - cost*quantity)
.round(2)`, `gross_margin_percent = round(profit/revenue*100, 1)` when
`revenue > 0` else `0`. -/
def computeFinancials (revenueOpt quantityOpt : Option ℚ) (cost : ℚ) :
    ℚ × ℚ × ℚ × ℚ :=
  let revenue := revenueOpt.getD 0
  let quantity := quantityOpt.getD 1
  let profit := round2 (revenue - cost * quantity)
  let margin := if 0 < revenue then round1 (profit / revenue * 100) else 0
  (revenue, quantity, profit, margin)

/-- Assemble one Canonical Transaction from a surviving raw row. -/
def buildTxn (maps : Mappings) (stats : Stats) (r : RawRow) : Stats × Txn :=
  let location := cleanLocation maps.locationMap r.location r.machine
  let sm := mapProductS maps stats r.product
  let m := sm.2
  let fin := computeFinancials r.total r.quantity m.cost
  (sm.1,
   { timestamp := r.timestamp
     location := location
     master_SKU := m.master_SKU
     master_Name := m.master_Name
     product_Family := m.product_Family
     type := m.type
     revenue := fin.1
     cost := m.cost
     quantity := fin.2.1
     profit := fin.2.2.1
     gross_margin_percent := fin.2.2.2
     mapping_tier := m.mapping_tier })

/-- Map `buildTxn` across the surviving rows, threading the statistics. -/
def buildTxns (maps : Mappings) (stats : Stats) : List RawRow → Stats × List Txn
  | [] => (stats, [])
  | r :: rs =>
      let st := buildTxn maps stats r
      let rest := buildTxns maps st.1 rs
      (rest.1, st.2 :: rest.2)

/-- Method `VendSoftProcessor.process_transactions` on already-parsed rows (no
date filter; the final `sort_values("date")` reordering is omitted — the
claims below concern the set of transactions and the statistics, which it
does not change). -/
def processTransactions (maps : Mappings) (stats0 : Stats) (rows : List RawRow) :
    Stats × List Txn :=
  let s1 := { stats0 with raw_transactions := rows.length }
  let deduped := dropDups dedupKey rows
  let s2 := { s1 with duplicates_removed := rows.length - deduped.length }
  let bt := buildTxns maps s2 deduped
  let txns := bt.2
  let s4 :=
    { bt.1 with
      total_revenue := (txns.map Txn.revenue).foldr (· + ·) 0
      unmapped_revenue :=
        ((txns.filter (fun t => t.mapping_tier = "unmapped")).map Txn.revenue).foldr (· + ·) 0 }
  (s4, txns)

/-! ## The api upload path's location backfill
(`api/process_supabase_upload.py`, `extract_location` at lines 149–159,
composed with `clean_location` at line 188) -/

/-- Test `pd.isna(row["Location"]) or str(row["Location"]).strip() == ""`. -/
def isBlankLoc (loc : Option String) : Bool :=
  match loc with
  | none => true
  | some s => strip s = ""

/-- Function `extract_location`: when the `Location` cell is NaN or blank, take
the (stripped) text after the first viable bracketed group of the machine
string, else `"Unknown"`; a non-blank cell is returned stripped. -/
def extractLocation (loc : Option String) (machine : String) : String :=
  if isBlankLoc loc then
    match afterBracket machine.data with
    | some tail => strip ⟨tail⟩
    | none => "Unknown"
  else strip (loc.getD "")

/-- The api upload path's full location normalisation: backfill the
`Location` column with `extract_location`, then run `clean_location`
(line 188). -/
def normalizeLocation (locMap : List (String × String)) (loc : Option String)
    (machine : String) : String :=
  cleanLocation locMap (some (extractLocation loc machine)) machine

/-- The location resolution written following the words of the spec
(§4.3): first backfill a blank raw location from the machine string, then
resolve: (1) exact directory match of the (backfilled) location, (2) exact
directory match of the machine, (3) heuristic fallback on the machine,
using the remainder when non-empty and the (backfilled) location
otherwise. -/
def specResolveLocation (locMap : List (String × String)) (loc : Option String)
    (machine : String) : String :=
  let backfilled : String :=
    if isBlankLoc loc then
      match afterBracket machine.data with
      | some tail => strip ⟨tail⟩
      | none => "Unknown"
    else strip (loc.getD "")
  match lookupDict locMap (strip backfilled) with
  | some d => d
  | none =>
      match lookupDict locMap (strip machine) with
      | some d => d
      | none =>
          let remainder := locationHeuristic (strip machine)
          if remainder = "" then strip backfilled else remainder

/-! ## Coverage statistics (claim C7) -/

/-- The coverage expression printed on line 309 of
`vendsoft_processor.py`: `(direct_mapped + family_mapped) /
len(output_df) * 100` with NO divide-by-zero guard — `none` models the
`ZeroDivisionError` raised when the output is empty. -/
def coverageVendsoft (directMapped familyMapped n : ℕ) : Option ℚ :=
  if n = 0 then none
  else some (((directMapped : ℚ) + familyMapped) / n * 100)

/-- The guarded coverage of `process_supabase_upload.py` lines 184–186:
`((len(df) - len(unmapped)) / len(df) * 100) if len(df) > 0 else 0`. -/
def coverageSupabase (n unmappedCount : ℕ) : ℚ :=
  if 0 < n then ((n : ℚ) - unmappedCount) / n * 100 else 0

/-! ## The Format A order parser (`import_transactions.py`,
`parse_haha_ai_order_details` lines 200–232) -/

/-- Function `_normalize_product_name`: `re.sub(r"\s+", " ", str(name).strip()
.lower())`. -/
def normalizeProductName (s : String) : String :=
  ⟨collapseWs (trimChars (lowerStr s).data)⟩

/-- One Format A order row: order number, the comma-delimited
`Product details` field, and `Amount Received` (`fillna(0)` applied). -/
structure OrderRow where
  orderNum : String
  productDetails : String
  amountReceived : ℚ
  deriving DecidableEq

/-- Split a string on `,` (Python `str.split(",")`). -/
def splitComma (l : List Char) : List String :=
  match l with
  | [] => [""]
  | c :: rest =>
      match splitComma rest with
      | [] => [""]
      | s :: ss => if c = ',' then "" :: s :: ss else (⟨[c]⟩ ++ s) :: ss

/-- The list `[item.strip() for item in product_details.split(",") if
item.strip()]`, with the empty-order placeholder: an empty item list
becomes `["Unknown Item"]`. -/
def orderItems (o : OrderRow) : List String :=
  let items := ((splitComma o.productDetails.data).map strip).filter (fun i => i ≠ "")
  if items.isEmpty then ["Unknown Item"] else items

/-- The `psd_map` lookup key: `order_num.strip() + "||" +
_normalize_product_name(item)`. -/
def itemKey (orderNum item : String) : String :=
  strip orderNum ++ "||" ++ normalizeProductName item

/-- The matching loop of lines 207–219: build `matched_items` (item,
amount, qty triples) and `unmatched_items`, consuming each `psd_map`
entry at most once per order; when `psd_map` is falsy (absent or empty)
everything is unmatched. -/
def classifyItems (psd : List (String × ℚ × ℚ)) (orderNum : String) :
    List String → List String →
    List (String × ℚ × ℚ) × List String
  | [], _ => ([], [])
  | item :: rest, usedKeys =>
      let key := itemKey orderNum item
      if psd ≠ [] then
        match lookupDict psd key with
        | some (amount, qty) =>
            if key ∈ usedKeys then
              let (m, u) := classifyItems psd orderNum rest usedKeys
              (m, item :: u)
            else
              let (m, u) := classifyItems psd orderNum rest (key :: usedKeys)
              ((item, amount, qty) :: m, u)
        | none =>
            let (m, u) := classifyItems psd orderNum rest usedKeys
            (m, item :: u)
      else
        let (m, u) := classifyItems psd orderNum rest usedKeys
        (m, item :: u)

def matchedOf (psd : List (String × ℚ × ℚ)) (o : OrderRow) :
    List (String × ℚ × ℚ) := (classifyItems psd o.orderNum (orderItems o) []).1

def unmatchedOf (psd : List (String × ℚ × ℚ)) (o : OrderRow) : List String :=
  (classifyItems psd o.orderNum (orderItems o) []).2

/-- The residual `remaining_total = max(amount_received - matched_total, 0)` and the
even share `remaining_total / len(unmatched_items)` (0 when there are no
unmatched items). -/
def shareOf (psd : List (String × ℚ × ℚ)) (o : OrderRow) : ℚ :=
  let matchedTotal := ((matchedOf psd o).map (fun r => r.2.1)).foldr (· + ·) 0
  let remaining := max (o.amountReceived - matchedTotal) 0
  if (unmatchedOf psd o).isEmpty then 0
  else remaining / (unmatchedOf psd o).length

/-- The `item_rows` list of lines 225–229: matched items first (quantity
defaulted to 1 when the table entry's quantity is falsy, i.e. zero), then
every unmatched item with the even share and quantity 1. -/
def parseOrderItems (psd : List (String × ℚ × ℚ)) (o : OrderRow) :
    List (String × ℚ × ℚ) :=
  (matchedOf psd o).map (fun r => (r.1, r.2.1, if r.2.2 = 0 then 1 else r.2.2))
    ++ (unmatchedOf psd o).map (fun i => (i, shareOf psd o, 1))

/-! ## Spec-side characterisation of keep-first deduplication -/

/-- Spec reading: "the surviving rows are exactly the first occurrence of each key in
input order": keep the head, discard every later row sharing its key,
recurse. -/
def firstOccurrences {α β : Type} [DecidableEq β] (key : α → β) :
    List α → List α
  | [] => []
  | r :: rs =>
      r :: firstOccurrences key (rs.filter (fun s => key s ≠ key r))
  termination_by l => l.length
  decreasing_by
    simpa using Nat.lt_succ_of_le (List.length_filter_le _ _)

/-! ## Spec-side reading of the dedup-key components (claim C1) -/

/-- Machine identifier as the claim words it: the bracketed integer when
one is present, otherwise the lower-cased machine string with all
non-alphanumeric characters stripped (the machine cell is whitespace-
stripped first, as `str(...).strip()` does). -/
def specMachineId (machine : String) : String :=
  match bracketNum (strip machine).data with
  | some ds => String.mk ds
  | none => stripNonAlnum (lowerStr (strip machine))

/-- Timestamp component: minute-truncated rendering or `"unknown"`. -/
def specTsPart (ts : Option Ts) : String :=
  match ts with
  | none => "unknown"
  | some t => t.fmtMinute

/-- Total component: the total rounded to 2 decimals (a NaN cell prints
as `"nan"`). -/
def specTotalPart (total : Option ℚ) : String :=
  match total with
  | some q => renderMoney (round2 q)
  | none => "nan"

/-! ## Convenience wrappers and concrete inputs used by witnesses and
counterexamples -/

/-- The pure mapping result of `_map_product` (statistics discarded). -/
def mapProduct (maps : Mappings) (p : String) : MapResult :=
  (mapProductS maps initStats p).2

/-- A processor instance with empty location directory and empty SKU
workbook. -/
def emptyMaps : Mappings := ⟨[], []⟩

/-- Catalog for the C5 counterexample: one family `"F"`, three rows whose
types are `C, B, A` (a three-way 1–1–1 modal tie; `"C"` is
first-encountered in catalog order) and whose costs are `1, 1, 2`
(arithmetic mean `4/3`, which is not representable in 2 decimals). -/
def cat5 : List SkuRow :=
  [ ⟨"S1", some "P1", some "F", some "C", none, none, none, 1⟩,
    ⟨"S2", some "P2", some "F", some "B", none, none, none, 1⟩,
    ⟨"S3", some "P3", some "F", some "A", none, none, none, 2⟩ ]

def maps5 : Mappings := ⟨[], cat5⟩

/-- Order for the C8 counterexample: two identical items `"A, A"` with an
order total of 8. -/
def order8 : OrderRow := ⟨"O1", "A, A", 8⟩

/-- Sales-detail table for the C8 counterexample: the pair
`("O1", "a")` carries exact amount 5 and quantity 0 (an unparseable
sales-volume cell coerced to 0). -/
def psd8 : List (String × ℚ × ℚ) := [("O1||a", (5, 0))]

/-- Raw row for the C9 counterexample: the machine name carries a
bracketed number in the middle of the string. -/
def row9 : RawRow :=
  ⟨some ⟨2026, 1, 15, 10, 0, 27⟩, some "L", "West [12] Bank", "Widget",
   some 1, some (5/2)⟩

/-- Raw row used by the C2/C10 witnesses: an unknown product sold for
2.50. -/
def rowW : RawRow :=
  ⟨some ⟨2026, 1, 15, 10, 0, 27⟩, some "The Met", "[21] West Bank 3743",
   "Mystery Snack", some 1, some (5/2)⟩

/-- The single transaction the pipeline produces from `rowW` with empty
mapping tables. -/
def txnW : Txn := (buildTxn emptyMaps initStats rowW).2

theorem dropDupsAux_eq_firstOccurrences {α β : Type} [DecidableEq β]
    (key : α → β) (rows : List α) :
    ∀ seen, dropDupsAux key seen rows
      = firstOccurrences key (rows.filter (fun r => key r ∉ seen)) := by
  induction rows with
  | nil => intro seen; simp [dropDupsAux, firstOccurrences]
  | cons r rs ih =>
      intro seen
      by_cases hr : key r ∈ seen
      · have hd : (decide (key r ∉ seen)) = false := by simpa using hr
        simp [dropDupsAux, if_pos hr, List.filter_cons, hd, ih]
      · have hd : (decide (key r ∉ seen)) = true := by simpa using hr
        simp only [dropDupsAux, if_neg hr, List.filter_cons, hd, if_pos trivial]
        rw [ih, firstOccurrences, List.filter_filter]
        refine congrArg (r :: firstOccurrences key ·) ?_
        apply List.filter_congr
        intro s _
        by_cases h1 : key s = key r <;> by_cases h2 : key s ∈ seen <;>
          simp [h1, h2]

/-- Pandas `drop_duplicates(keep="first")` keeps exactly the first occurrence of
each key, in input order. -/
theorem dropDups_eq_firstOccurrences {α β : Type} [DecidableEq β]
    (key : α → β) (rows : List α) :
    dropDups key rows = firstOccurrences key rows := by
  rw [dropDups, dropDupsAux_eq_firstOccurrences]
  congr 1
  simp

theorem mem_of_mem_dropDupsAux {α β : Type} [DecidableEq β]
    (key : α → β) (rows : List α) :
    ∀ seen r, r ∈ dropDupsAux key seen rows → r ∈ rows := by
  induction rows with
  | nil => intro seen r h; simp [dropDupsAux] at h
  | cons a rs ih =>
      intro seen r h
      by_cases ha : key a ∈ seen
      · simp only [dropDupsAux, if_pos ha] at h
        exact List.mem_cons_of_mem _ (ih _ _ h)
      · simp only [dropDupsAux, if_neg ha, List.mem_cons] at h
        rcases h with h | h
        · exact h ▸ List.mem_cons_self _ _
        · exact List.mem_cons_of_mem _ (ih _ _ h)

/-- Every surviving row was an input row. -/
theorem mem_of_mem_dropDups {α β : Type} [DecidableEq β]
    (key : α → β) (rows : List α) (r : α) (h : r ∈ dropDups key rows) :
    r ∈ rows := mem_of_mem_dropDupsAux key rows [] r h

/-! ## Statistics-independence of the per-row computations -/

/-- The mapping result returned by `_map_product` does not depend on the
statistics counters it increments. -/
theorem mapProductS_snd_const (maps : Mappings) (s s' : Stats) (p : String) :
    (mapProductS maps s p).2 = (mapProductS maps s' p).2 := by
  simp only [mapProductS]
  cases lookupDict (buildDirectMapping maps.catalog) (strip p)
  · cases familyInfo maps.catalog (strip p) <;> rfl
  · rfl

/-- The transaction built from a raw row does not depend on the incoming
statistics. -/
theorem buildTxn_snd_const (maps : Mappings) (s s' : Stats) (r : RawRow) :
    (buildTxn maps s r).2 = (buildTxn maps s' r).2 := by
  simp only [buildTxn]
  rw [mapProductS_snd_const maps s s' r.product]

theorem buildTxns_snd_const (maps : Mappings) (rows : List RawRow) :
    ∀ s s', (buildTxns maps s rows).2 = (buildTxns maps s' rows).2 := by
  induction rows with
  | nil => intro s s'; rfl
  | cons r rs ih =>
      intro s s'
      simp only [buildTxns]
      rw [buildTxn_snd_const maps s s' r, ih]

/-- The transaction list produced by a pipeline run is a pure function of
the rows and the mapping tables; the mutable statistics it also updates
never feed back into it. -/
theorem processTransactions_snd_const (maps : Mappings) (rows : List RawRow)
    (s s' : Stats) :
    (processTransactions maps s rows).2 = (processTransactions maps s' rows).2 := by
  unfold processTransactions
  exact buildTxns_snd_const maps _ _ _

/-- The output list is the per-row transaction builder mapped over the
deduplicated rows. -/
theorem buildTxns_snd_eq_map (maps : Mappings) (rows : List RawRow) :
    ∀ s, (buildTxns maps s rows).2
      = rows.map (fun r => (buildTxn maps initStats r).2) := by
  induction rows with
  | nil => intro s; rfl
  | cons r rs ih =>
      intro s
      simp only [buildTxns, List.map_cons]
      rw [buildTxn_snd_const maps _ initStats r, ih]

theorem processTransactions_snd_eq_map (maps : Mappings) (rows : List RawRow)
    (s : Stats) :
    (processTransactions maps s rows).2
      = (dropDups dedupKey rows).map (fun r => (buildTxn maps initStats r).2) := by
  unfold processTransactions
  exact buildTxns_snd_eq_map maps _ _

theorem mapProductS_preserves_dup_count (maps : Mappings) (s : Stats)
    (p : String) :
    (mapProductS maps s p).1.duplicates_removed = s.duplicates_removed := by
  simp only [mapProductS]
  cases lookupDict (buildDirectMapping maps.catalog) (strip p)
  · cases familyInfo maps.catalog (strip p) <;> rfl
  · rfl

theorem buildTxns_preserves_dup_count (maps : Mappings) (rows : List RawRow) :
    ∀ s, (buildTxns maps s rows).1.duplicates_removed = s.duplicates_removed := by
  induction rows with
  | nil => intro s; rfl
  | cons r rs ih =>
      intro s
      simp only [buildTxns, buildTxn]
      rw [ih]
      exact mapProductS_preserves_dup_count maps s r.product

theorem buildTxns_length (maps : Mappings) (rows : List RawRow) :
    ∀ s, (buildTxns maps s rows).2.length = rows.length := by
  induction rows with
  | nil => intro s; rfl
  | cons r rs ih =>
      intro s
      simp only [buildTxns, List.length_cons]
      rw [ih]

end SmartVending

namespace SmartVending

/-! ## Claim theorems -/

/-- C1: per row the dedup key is
`{minute timestamp or "unknown"}_{machine id}_{normalized product}_{2-decimal total}`
(machine id = bracketed integer when present, else the lower-cased
machine with non-alphanumerics stripped); the surviving rows are exactly
the first occurrence of each key in input order, and `duplicates_removed`
is the input length minus the output length. -/
theorem dedup_first_occurrences_and_key (maps : Mappings) (s0 : Stats)
    (rows : List RawRow) :
    dropDups dedupKey rows = firstOccurrences dedupKey rows
  ∧ (processTransactions maps s0 rows).1.duplicates_removed
      = rows.length - (processTransactions maps s0 rows).2.length
  ∧ ∀ r : RawRow,
      dedupKey r = specTsPart r.timestamp ++ "_" ++ specMachineId r.machine
        ++ "_" ++ stripNonAlnum (lowerStr r.product) ++ "_" ++ specTotalPart r.total := by
  refine ⟨dropDups_eq_firstOccurrences _ _, ?_, fun r => rfl⟩
  simp only [processTransactions]
  rw [buildTxns_preserves_dup_count, buildTxns_length]

/-- C4: running the pipeline a second time on the same inputs produces
the identical transaction list; the mutable statistics the first run left
behind never feed back into the output. -/
theorem pipeline_idempotent (maps : Mappings) (s0 : Stats) (rows : List RawRow) :
    (processTransactions maps (processTransactions maps s0 rows).1 rows).2
      = (processTransactions maps s0 rows).2 :=
  processTransactions_snd_const maps rows _ s0

end SmartVending

namespace SmartVending

/-! ## Order lemmas for the lexicographic comparison and mode selection -/

theorem charListLt_irrefl : ∀ a, charListLt a a = false
  | [] => rfl
  | c :: cs => by
      simp only [charListLt, lt_irrefl, if_false]
      exact charListLt_irrefl cs

theorem charListLt_asymm : ∀ a b, charListLt a b = true → charListLt b a = false
  | [], [] => by simp [charListLt]
  | [], _ :: _ => by simp [charListLt]
  | _ :: _, [] => by simp [charListLt]
  | a :: as, b :: bs => by
      simp only [charListLt]
      by_cases h1 : a < b
      · intro _
        simp [h1, asymm h1, ne_of_gt h1]
      · by_cases h2 : b < a
        · simp [h1, h2]
        · simp only [if_neg h1, if_neg h2]
          exact charListLt_asymm as bs

theorem charListLt_nlt_trans :
    ∀ a b c, charListLt a b = false → charListLt b c = false → charListLt a c = false
  | [], [], c => fun _ hbc => hbc
  | [], _ :: _, _ => by simp [charListLt]
  | _ :: _, b, [] => by
      intro _ _
      cases b <;> simp [charListLt]
  | a :: as, [], c :: cs => by simp [charListLt]
  | a :: as, b :: bs, c :: cs => by
      simp only [charListLt]
      by_cases h1 : a < b
      · simp [h1]
      · by_cases h2 : b < c
        · simp [h1, h2]
        · simp only [if_neg h1, if_neg h2]
          by_cases h3 : b < a
          · by_cases h4 : c < b
            · have hca : c < a := lt_trans h4 h3
              simp [asymm hca, hca]
            · have hcb : c = b := le_antisymm (not_lt.1 h2) (not_lt.1 h4)
              subst hcb
              simp [asymm h3, h3]
          · by_cases h4 : c < b
            · have hab : a = b := le_antisymm (not_lt.1 h3) (not_lt.1 h1)
              subst hab
              simp [asymm h4, h4]
            · have hab : a = b := le_antisymm (not_lt.1 h3) (not_lt.1 h1)
              have hbc : b = c := le_antisymm (not_lt.1 h4) (not_lt.1 h2)
              subst hab; subst hbc
              simp only [lt_irrefl, if_false, if_neg (lt_irrefl a)]
              intro hx hy
              exact charListLt_nlt_trans as bs cs hx hy

theorem strLtB_irrefl (a : String) : strLtB a a = false := charListLt_irrefl a.data

theorem strLtB_asymm (a b : String) (h : strLtB a b = true) : strLtB b a = false :=
  charListLt_asymm a.data b.data h

theorem strLtB_nlt_trans (a b c : String) (h1 : strLtB a b = false)
    (h2 : strLtB b c = false) : strLtB a c = false :=
  charListLt_nlt_trans a.data b.data c.data h1 h2

theorem goodAgainst_refl (l : List String) (b : String) : goodAgainst l b b :=
  Or.inr ⟨rfl, strLtB_irrefl b⟩

theorem goodAgainst_trans (l : List String) (a b c : String)
    (h1 : goodAgainst l a b) (h2 : goodAgainst l b c) : goodAgainst l a c := by
  rcases h1 with h1 | ⟨h1e, h1s⟩ <;> rcases h2 with h2 | ⟨h2e, h2s⟩
  · exact Or.inl (lt_trans h2 h1)
  · exact Or.inl (h2e ▸ h1)
  · exact Or.inl (h1e ▸ h2)
  · exact Or.inr ⟨h2e.trans h1e, strLtB_nlt_trans c b a h2s h1s⟩

theorem pickStep_good (l : List String) (b x : String) :
    ∃ c, pickStep l (some b) x = some c ∧ (c = b ∨ c = x)
      ∧ goodAgainst l c b ∧ goodAgainst l c x := by
  simp only [pickStep]
  by_cases h1 : countOcc l b < countOcc l x
  · refine ⟨x, by simp [h1], Or.inr rfl, Or.inl h1, goodAgainst_refl l x⟩
  · by_cases h2 : countOcc l x = countOcc l b ∧ strLtB x b = true
    · refine ⟨x, ?_, Or.inr rfl, ?_, goodAgainst_refl l x⟩
      · simp [h1, h2.1, h2.2]
      · exact Or.inr ⟨h2.1.symm, strLtB_asymm x b h2.2⟩
    · refine ⟨b, ?_, Or.inl rfl, goodAgainst_refl l b, ?_⟩
      · rcases Decidable.not_and_iff_or_not.1 h2 with h | h
        · simp [h1, h]
        · simp only [Bool.not_eq_true] at h
          simp [h1, h]
      · rcases Decidable.not_and_iff_or_not.1 h2 with h | h
        · exact Or.inl (lt_of_le_of_ne (not_lt.1 h1) h)
        · simp only [Bool.not_eq_true] at h
          rcases eq_or_lt_of_le (not_lt.1 h1) with he | hl2
          · exact Or.inr ⟨he, h⟩
          · exact Or.inl hl2

theorem pickMode_fold_spec (l : List String) :
    ∀ (suf : List String) (b : String),
      ∃ m, suf.foldl (pickStep l) (some b) = some m
        ∧ (m = b ∨ m ∈ suf) ∧ goodAgainst l m b ∧ ∀ x ∈ suf, goodAgainst l m x := by
  intro suf
  induction suf with
  | nil => intro b; exact ⟨b, rfl, Or.inl rfl, goodAgainst_refl l b, by simp⟩
  | cons x rest ih =>
      intro b
      obtain ⟨c, hc, hcb, hgb, hgx⟩ := pickStep_good l b x
      obtain ⟨m, hm, hmem, hmc, hall⟩ := ih c
      refine ⟨m, ?_, ?_, goodAgainst_trans l m c b hmc hgb, ?_⟩
      · simpa [List.foldl_cons, hc] using hm
      · rcases hmem with rfl | hmem
        · rcases hcb with rfl | rfl
          · exact Or.inl rfl
          · exact Or.inr (List.mem_cons_self _ _)
        · exact Or.inr (List.mem_cons_of_mem _ hmem)
      · intro y hy
        rcases List.mem_cons.1 hy with rfl | hy
        · exact goodAgainst_trans l m c y hmc hgx
        · exact hall y hy

/-- The mode selection really returns the lexicographically least value
of maximal multiplicity — the value `series.mode()[0]` denotes. -/
theorem pickMode_modal_least (l : List String) (m : String) (h : pickMode l = some m) :
    m ∈ l ∧ ∀ x ∈ l, countOcc l x ≤ countOcc l m
      ∧ (countOcc l x = countOcc l m → strLtB x m = false) := by
  cases l with
  | nil => cases h
  | cons a rest =>
      obtain ⟨m', hm', hmem, hga, hall⟩ := pickMode_fold_spec (a :: rest) rest a
      have hmm : m' = m := by
        have : pickMode (a :: rest) = some m' := by
          simp only [pickMode, List.foldl_cons, pickStep]
          exact hm'
        rw [this] at h
        exact Option.some.inj h
      subst hmm
      have hgood : ∀ x ∈ a :: rest, goodAgainst (a :: rest) m' x := by
        intro y hy
        rcases List.mem_cons.1 hy with rfl | hy
        · exact hga
        · exact hall y hy
      refine ⟨?_, ?_⟩
      · rcases hmem with rfl | hmem
        · exact List.mem_cons_self _ _
        · exact List.mem_cons_of_mem _ hmem
      · intro x hx
        rcases hgood x hx with hlt | ⟨heq, hs⟩
        · exact ⟨le_of_lt hlt, fun hc => absurd (hc ▸ hlt) (lt_irrefl _)⟩
        · exact ⟨le_of_eq heq, fun _ => hs⟩

/-- Case analysis on the three mapping tiers of `_map_product`. -/
theorem mapProductS_spec (maps : Mappings) (s : Stats) (p : String) :
    (∃ sku, lookupDict (buildDirectMapping maps.catalog) (strip p) = some sku
        ∧ (mapProductS maps s p).2.mapping_tier = "direct")
  ∨ (lookupDict (buildDirectMapping maps.catalog) (strip p) = none
        ∧ ∃ fi, familyInfo maps.catalog (strip p) = some fi
        ∧ (mapProductS maps s p).2
            = ⟨"FAMILY_" ++ ⟨(strip p).data.map (fun c => if c = ' ' then '_' else c.toUpper)⟩,
               some (strip p), some (strip p), some fi.type, fi.avg_cost, "family"⟩)
  ∨ (lookupDict (buildDirectMapping maps.catalog) (strip p) = none
        ∧ familyInfo maps.catalog (strip p) = none
        ∧ (mapProductS maps s p).2
            = ⟨"UNMAPPED", some (strip p), some "Unmapped", some "Unknown", 0, "unmapped"⟩) := by
  simp only [mapProductS]
  cases hl : lookupDict (buildDirectMapping maps.catalog) (strip p) with
  | some sku =>
      refine Or.inl ⟨sku, rfl, ?_⟩
      dsimp only []
      cases lookupDict (buildSkuDetails maps.catalog) sku <;> rfl
  | none =>
      cases hf : familyInfo maps.catalog (strip p) with
      | some fi => exact Or.inr (Or.inl ⟨rfl, fi, rfl, rfl⟩)
      | none => exact Or.inr (Or.inr ⟨rfl, rfl, rfl⟩)

/-- C2: for every transaction the pipeline emits, profit is the 2-decimal
rounding of revenue minus cost times quantity, the gross margin is 0 when
revenue is not positive and otherwise `round(100 * profit / revenue, 1)`,
and the revenue is exactly the parsed `Total` of a source row
(defaulting to 0 when unparseable), never a fabricated value. -/
theorem financials_correct (maps : Mappings) (s0 : Stats) (rows : List RawRow)
    (t : Txn) (ht : t ∈ (processTransactions maps s0 rows).2) :
    t.profit = round2 (t.revenue - t.cost * t.quantity)
  ∧ t.gross_margin_percent
      = (if 0 < t.revenue then round1 (100 * t.profit / t.revenue) else 0)
  ∧ ∃ r ∈ rows, t.revenue = r.total.getD 0 ∧ t.quantity = r.quantity.getD 1 := by
  rw [processTransactions_snd_eq_map] at ht
  obtain ⟨r, hr, rfl⟩ := List.mem_map.1 ht
  have harith : ∀ p rv : ℚ, p / rv * 100 = 100 * p / rv := by intro p rv; ring
  refine ⟨?_, ?_, r, mem_of_mem_dropDups _ _ _ hr, ?_, ?_⟩ <;>
    simp [buildTxn, computeFinancials, harith]

/-- Witness for C2 at a concrete transaction. -/
theorem financials_correct_witness :
    txnW.profit = round2 (txnW.revenue - txnW.cost * txnW.quantity)
  ∧ txnW.gross_margin_percent
      = (if 0 < txnW.revenue then round1 (100 * txnW.profit / txnW.revenue) else 0)
  ∧ ∃ r ∈ [rowW], txnW.revenue = r.total.getD 0 ∧ txnW.quantity = r.quantity.getD 1 :=
  financials_correct emptyMaps initStats [rowW] txnW
    (by simp [processTransactions_snd_eq_map, dropDups, dropDupsAux, txnW])

/-- C10: a transaction mapped at the unmapped tier carries cost 0, so its
profit is its (2-decimal-rounded) revenue, and when the revenue is
positive and already has at most 2 decimal places its gross margin is
exactly 100 percent. -/
theorem unmapped_is_pure_profit (maps : Mappings) (s0 : Stats)
    (rows : List RawRow) (t : Txn)
    (ht : t ∈ (processTransactions maps s0 rows).2)
    (hu : t.mapping_tier = "unmapped") :
    t.cost = 0 ∧ t.profit = round2 t.revenue
  ∧ (0 < t.revenue → round2 t.revenue = t.revenue → t.gross_margin_percent = 100) := by
  rw [processTransactions_snd_eq_map] at ht
  obtain ⟨r, hr, rfl⟩ := List.mem_map.1 ht
  have htier : (buildTxn maps initStats r).2.mapping_tier
      = ((mapProductS maps initStats r.product).2).mapping_tier := by
    simp [buildTxn]
  rcases mapProductS_spec maps initStats r.product with ⟨sku, _, hd⟩ | ⟨_, fi, _, hm⟩ | ⟨_, _, hm⟩
  · rw [htier, hd] at hu; simp at hu
  · rw [htier, hm] at hu; simp at hu
  have hcost : ((mapProductS maps initStats r.product).2).cost = 0 := by rw [hm]
  refine ⟨by simpa [buildTxn] using hcost, ?_, ?_⟩
  · simp [buildTxn, computeFinancials, hcost]
  · intro hpos hround
    have hrev : (buildTxn maps initStats r).2.revenue = r.total.getD 0 := by
      simp [buildTxn, computeFinancials]
    have hprofit : (buildTxn maps initStats r).2.profit = round2 (r.total.getD 0) := by
      simp [buildTxn, computeFinancials, hcost]
    rw [hrev] at hpos hround
    have hmarg : (buildTxn maps initStats r).2.gross_margin_percent
        = round1 ((buildTxn maps initStats r).2.profit / (r.total.getD 0) * 100) := by
      simp [buildTxn, computeFinancials, if_pos hpos]
    rw [hmarg, hprofit, hround, div_self (ne_of_gt hpos)]
    norm_num [round1, roundTo, round_eq]

/-- Witness for C10: the concrete unmapped 2.50 sale has margin 100. -/
theorem unmapped_is_pure_profit_witness :
    txnW.cost = 0 ∧ txnW.profit = round2 txnW.revenue
  ∧ txnW.gross_margin_percent = 100 := by
  have h := unmapped_is_pure_profit emptyMaps initStats [rowW] txnW
    (by simp [processTransactions_snd_eq_map, dropDups, dropDupsAux, txnW])
    (by decide)
  have hrev : txnW.revenue = 5/2 := by
    simp [txnW, buildTxn, computeFinancials, rowW]
  refine ⟨h.1, h.2.1, h.2.2 ?_ ?_⟩
  · rw [hrev]; norm_num
  · rw [hrev]; norm_num [round2, roundTo, round_eq]

end SmartVending

namespace SmartVending

/-- A nonempty list has a mode. -/
theorem pickMode_eq_none (l : List String) (h : pickMode l = none) : l = [] := by
  cases l with
  | nil => rfl
  | cons a rest =>
      obtain ⟨m, hm, -, -, -⟩ := pickMode_fold_spec (a :: rest) rest a
      have hp : pickMode (a :: rest) = some m := by
        simp only [pickMode, List.foldl_cons, pickStep]
        exact hm
      rw [hp] at h
      cases h

/-- The family record computed from the C5 catalog: the rounded mean and
the lexicographically least of the three tied types. -/
theorem family_value_at_cat5 :
    familyInfo cat5 "F" = some ⟨round2 (meanPosCost (familyRows cat5 "F")), "A"⟩ := by
  have hne : (familyRows cat5 "F").isEmpty = false := by decide
  have hty : (pickMode ((familyRows cat5 "F").filterMap SkuRow.type)).getD "Unknown" = "A" := by
    decide
  simp [familyInfo, hne, hty]

/-- C5 counterexample: on a family whose rows carry types `C, B, A` (a
three-way modal tie, `"C"` first-encountered) and costs `1, 1, 2` (mean
`4/3`), the code returns type `"A"` — the lexicographically least tied
mode, not the first-encountered `"C"` — and cost `1.33`, the 2-decimal
rounding of the mean, not the exact mean `4/3` the claim prescribes. -/
theorem family_mapping_counterexample :
    (mapProduct maps5 "F").type = some "A"
  ∧ (mapProduct maps5 "F").cost = 133/100
  ∧ some "A" ≠ some "C"
  ∧ ((133:ℚ)/100 ≠ 4/3)
  ∧ meanPosCost (familyRows cat5 "F") = 4/3
  ∧ ((familyRows cat5 "F").filterMap SkuRow.type).head? = some "C" := by
  have hstrip : strip "F" = "F" := by decide
  have hr : familyRows cat5 "F" = cat5 := by decide
  have hmean : meanPosCost (familyRows cat5 "F") = 4/3 := by
    rw [hr]; norm_num [meanPosCost, cat5, List.filter]
  have hcost133 : round2 (meanPosCost (familyRows cat5 "F")) = 133/100 := by
    rw [hmean]; norm_num [round2, roundTo, round_eq]
  have hm : (mapProduct maps5 "F").cost = 133/100 := by
    rcases mapProductS_spec maps5 initStats "F" with ⟨sku, hl2, _⟩ | ⟨_, fi, hf2, hmm⟩ | ⟨_, hf2, _⟩
    · rw [show lookupDict (buildDirectMapping maps5.catalog) (strip "F") = none from by decide]
        at hl2
      cases hl2
    · simp only [maps5, hstrip] at hf2
      rw [family_value_at_cat5] at hf2
      obtain rfl := (Option.some.inj hf2).symm
      show ((mapProductS maps5 initStats "F").2).cost = 133/100
      rw [hmm]
      exact hcost133
    · simp only [maps5, hstrip] at hf2
      rw [family_value_at_cat5] at hf2
      cases hf2
  refine ⟨by decide, hm, by decide, by norm_num, hmean, by decide⟩

/-- C5 amended: a raw product that is not direct-mapped but names a
family present in the catalog is mapped to the synthesized
`FAMILY_<name upper-cased, spaces → underscores>` pseudo-SKU, with cost
the 2-decimal rounding of the arithmetic mean of the positive unit costs
of that family's rows (0 if none) and type the modal type value, ties
broken by the lexicographically least value (not first-encountered
catalog order); `"Unknown"` when the family has no non-null type. -/
theorem family_mapping_amended (maps : Mappings) (s : Stats) (p : String)
    (hl : lookupDict (buildDirectMapping maps.catalog) (strip p) = none)
    (hf : familyInfo maps.catalog (strip p) ≠ none) :
    ∃ fi, familyInfo maps.catalog (strip p) = some fi
      ∧ (mapProductS maps s p).2
          = ⟨"FAMILY_" ++ ⟨(strip p).data.map (fun c => if c = ' ' then '_' else c.toUpper)⟩,
             some (strip p), some (strip p), some fi.type, fi.avg_cost, "family"⟩
      ∧ fi.avg_cost = round2 (meanPosCost (familyRows maps.catalog (strip p)))
      ∧ ((familyTypes maps.catalog (strip p) = [] ∧ fi.type = "Unknown")
          ∨ (fi.type ∈ familyTypes maps.catalog (strip p)
             ∧ ∀ x ∈ familyTypes maps.catalog (strip p),
                 countOcc (familyTypes maps.catalog (strip p)) x
                   ≤ countOcc (familyTypes maps.catalog (strip p)) fi.type
               ∧ (countOcc (familyTypes maps.catalog (strip p)) x
                     = countOcc (familyTypes maps.catalog (strip p)) fi.type
                   → strLtB x fi.type = false))) := by
  rcases mapProductS_spec maps s p with ⟨sku, hl2, _⟩ | ⟨_, fi, hf2, hm⟩ | ⟨_, hf2, _⟩
  · rw [hl] at hl2; cases hl2
  · refine ⟨fi, hf2, hm, ?_⟩
    have hgrp : (familyRows maps.catalog (strip p)).isEmpty = false := by
      by_cases hgg : (familyRows maps.catalog (strip p)).isEmpty = true
      · simp only [familyInfo, hgg, if_true] at hf2
        cases hf2
      · simpa using hgg
    have hfi : fi = ⟨round2 (meanPosCost (familyRows maps.catalog (strip p))),
        (pickMode (familyTypes maps.catalog (strip p))).getD "Unknown"⟩ := by
      simp only [familyInfo, hgrp, Bool.false_eq_true, if_false] at hf2
      exact (Option.some.inj hf2).symm
    subst hfi
    refine ⟨rfl, ?_⟩
    cases hmode : pickMode (familyTypes maps.catalog (strip p)) with
    | none =>
        left
        exact ⟨pickMode_eq_none _ hmode, by simp [hmode]⟩
    | some m =>
        right
        have hml := pickMode_modal_least _ m hmode
        simpa [hmode] using hml
  · exact absurd hf2 hf

/-- Witness for the amended C5 at the concrete catalog. -/
theorem family_mapping_amended_witness :
    ∃ fi, familyInfo maps5.catalog (strip "F") = some fi
      ∧ (mapProductS maps5 initStats "F").2
          = ⟨"FAMILY_" ++ ⟨(strip "F").data.map (fun c => if c = ' ' then '_' else c.toUpper)⟩,
             some (strip "F"), some (strip "F"), some fi.type, fi.avg_cost, "family"⟩
      ∧ fi.avg_cost = round2 (meanPosCost (familyRows maps5.catalog (strip "F")))
      ∧ ((familyTypes maps5.catalog (strip "F") = [] ∧ fi.type = "Unknown")
          ∨ (fi.type ∈ familyTypes maps5.catalog (strip "F")
             ∧ ∀ x ∈ familyTypes maps5.catalog (strip "F"),
                 countOcc (familyTypes maps5.catalog (strip "F")) x
                   ≤ countOcc (familyTypes maps5.catalog (strip "F")) fi.type
               ∧ (countOcc (familyTypes maps5.catalog (strip "F")) x
                     = countOcc (familyTypes maps5.catalog (strip "F")) fi.type
                   → strLtB x fi.type = false))) :=
  family_mapping_amended maps5 initStats "F" (by decide) (by decide)

end SmartVending

namespace SmartVending

/-- C6: the api upload path's location normalisation (backfill of a blank
location from the machine's bracketed prefix, then directory lookup of
the location, directory lookup of the machine, and the
strip-bracket/strip-4-digit heuristic, in that order) coincides with the
resolution procedure as the spec words it; and the backfill maps a blank
location to the text after the machine's bracket, or `"Unknown"` when the
machine has no (viable) bracket, and leaves a non-blank location
(stripped) untouched. -/
theorem location_resolution_order (locMap : List (String × String))
    (loc : Option String) (machine : String) :
    normalizeLocation locMap loc machine = specResolveLocation locMap loc machine
  ∧ (isBlankLoc loc = true → ∀ t, afterBracket machine.data = some t →
      extractLocation loc machine = strip ⟨t⟩)
  ∧ (isBlankLoc loc = true → afterBracket machine.data = none →
      extractLocation loc machine = "Unknown")
  ∧ (isBlankLoc loc = false → extractLocation loc machine = strip (loc.getD "")) := by
  refine ⟨rfl, ?_, ?_, ?_⟩
  · intro hb t ht
    simp [extractLocation, hb, ht]
  · intro hb ht
    simp [extractLocation, hb, ht]
  · intro hb
    simp [extractLocation, hb]

/-- Witness for C6, including the spec's own example
`"[4] The Bowen Freezer" → "The Bowen Freezer"`. -/
theorem location_resolution_order_witness :
    normalizeLocation [] none "[4] The Bowen Freezer"
      = specResolveLocation [] none "[4] The Bowen Freezer"
  ∧ extractLocation none "[4] The Bowen Freezer" = "The Bowen Freezer"
  ∧ extractLocation none "no bracket here" = "Unknown" :=
  ⟨(location_resolution_order [] none "[4] The Bowen Freezer").1,
   by
    have h := (location_resolution_order [] none "[4] The Bowen Freezer").2.1 (by decide)
      ("] The Bowen Freezer".data.tail) (by decide)
    simpa using h,
   (location_resolution_order [] none "no bracket here").2.2.1 (by decide) (by decide)⟩

/-- C3 counterexample: on raw product `" X "` (surrounding whitespace,
no catalog entry) the unmapped tier returns `master_name = "X"`, the
whitespace-stripped name — not the raw string `" X "` verbatim as the
claim states. -/
theorem unmapped_name_not_verbatim :
    (mapProduct emptyMaps " X ").master_Name = some "X"
  ∧ (mapProduct emptyMaps " X ").master_Name ≠ some " X " := by decide

/-- C3 amended: the three tiers are tried in order on the
whitespace-stripped raw product with case-sensitive exact matching —
direct (any per-system alias or master name), then family, then
unmapped; the unmapped tier returns exactly
`UNMAPPED / stripped raw name / "Unmapped" / "Unknown" / cost 0`. -/
theorem three_tier_mapping (maps : Mappings) (s : Stats) (p : String) :
    ((mapProductS maps s p).2.mapping_tier = "direct"
        ↔ (lookupDict (buildDirectMapping maps.catalog) (strip p)).isSome)
  ∧ ((mapProductS maps s p).2.mapping_tier = "family"
        ↔ lookupDict (buildDirectMapping maps.catalog) (strip p) = none
            ∧ (familyInfo maps.catalog (strip p)).isSome)
  ∧ (lookupDict (buildDirectMapping maps.catalog) (strip p) = none →
      familyInfo maps.catalog (strip p) = none →
        (mapProductS maps s p).2
          = ⟨"UNMAPPED", some (strip p), some "Unmapped", some "Unknown", 0, "unmapped"⟩) := by
  rcases mapProductS_spec maps s p with ⟨sku, hl, hd⟩ | ⟨hl, fi, hf, hm⟩ | ⟨hl, hf, hm⟩
  · refine ⟨by simp [hd, hl], by simp [hd, hl], ?_⟩
    intro h _
    rw [hl] at h
    cases h
  · refine ⟨by simp [hm, hl], by simp [hm, hl, hf], ?_⟩
    intro _ h2
    rw [hf] at h2
    cases h2
  · exact ⟨by simp [hm, hl], by simp [hm, hl, hf], fun _ _ => hm⟩

/-- Witness for the amended C3: the concrete unmapped result. -/
theorem three_tier_mapping_witness :
    (mapProductS emptyMaps initStats " X ").2
      = ⟨"UNMAPPED", some (strip " X "), some "Unmapped", some "Unknown", 0, "unmapped"⟩ :=
  (three_tier_mapping emptyMaps initStats " X ").2.2 (by decide) (by decide)

end SmartVending

namespace SmartVending

theorem mapProductS_tier_sum (maps : Mappings) (s : Stats) (p : String) :
    (mapProductS maps s p).1.direct_mapped + (mapProductS maps s p).1.family_mapped
      + (mapProductS maps s p).1.unmapped
    = s.direct_mapped + s.family_mapped + s.unmapped + 1 := by
  simp only [mapProductS]
  cases lookupDict (buildDirectMapping maps.catalog) (strip p) with
  | some sku =>
      dsimp only []
      cases lookupDict (buildSkuDetails maps.catalog) sku <;> omega
  | none =>
      cases familyInfo maps.catalog (strip p) <;> (dsimp only; omega)

theorem buildTxns_tier_sum (maps : Mappings) (rows : List RawRow) :
    ∀ s, (buildTxns maps s rows).1.direct_mapped
        + (buildTxns maps s rows).1.family_mapped
        + (buildTxns maps s rows).1.unmapped
      = s.direct_mapped + s.family_mapped + s.unmapped + rows.length := by
  induction rows with
  | nil => intro s; simp [buildTxns]
  | cons r rs ih =>
      intro s
      simp only [buildTxns, buildTxn, List.length_cons]
      rw [ih]
      have := mapProductS_tier_sum maps s r.product
      omega

/-- C7: the `process_supabase_upload.py` variant reports coverage
`100*(N-U)/N` with a divide-by-zero guard that returns 0 at `N = 0`, and
the pipeline's tier counters partition the surviving rows (so
`N - U = D + F`); but the coverage expression `vendsoft_processor.py`
prints at line 309 has NO guard — at `N = 0` it is a `ZeroDivisionError`
(modelled as `none`), not the claimed 0. -/
theorem coverage_guard_divergence :
    coverageVendsoft 0 0 0 = none
  ∧ coverageSupabase 0 0 = 0
  ∧ (∀ d f n : ℕ, coverageVendsoft d f n
      = if n = 0 then none else some (100 * ((d : ℚ) + f) / n))
  ∧ (∀ n u : ℕ, coverageSupabase n u
      = if 0 < n then 100 * ((n : ℚ) - u) / n else 0)
  ∧ (∀ (maps : Mappings) (rows : List RawRow),
      (processTransactions maps initStats rows).1.direct_mapped
        + (processTransactions maps initStats rows).1.family_mapped
        + (processTransactions maps initStats rows).1.unmapped
      = (processTransactions maps initStats rows).2.length) := by
  refine ⟨rfl, rfl, ?_, ?_, ?_⟩
  · intro d f n
    simp only [coverageVendsoft]
    split
    · rfl
    · congr 1
      ring
  · intro n u
    simp only [coverageSupabase]
    split
    · ring
    · rfl
  · intro maps rows
    simp only [processTransactions]
    rw [buildTxns_length]
    have h := buildTxns_tier_sum maps (dropDups dedupKey rows)
      { initStats with
        raw_transactions := rows.length,
        duplicates_removed := rows.length - (dropDups dedupKey rows).length }
    simpa [initStats] using h

end SmartVending

namespace SmartVending

theorem classify_matched_lookup (psd : List (String × ℚ × ℚ)) (orderNum : String) :
    ∀ (items : List String) (used : List String) (r : String × ℚ × ℚ),
      r ∈ (classifyItems psd orderNum items used).1 →
      lookupDict psd (itemKey orderNum r.1) = some r.2 := by
  intro items
  induction items with
  | nil => intro used r h; simp [classifyItems] at h
  | cons item rest ih =>
      intro used r h
      by_cases hp : psd ≠ []
      · simp only [classifyItems, if_pos hp] at h
        cases hl : lookupDict psd (itemKey orderNum item) with
        | some v =>
            rw [hl] at h
            by_cases hk : itemKey orderNum item ∈ used
            · simp only [if_pos hk] at h
              exact ih used r h
            · simp only [if_neg hk] at h
              rcases List.mem_cons.1 h with rfl | h2
              · simpa using hl
              · exact ih _ r h2
        | none =>
            rw [hl] at h
            exact ih used r h
      · simp only [classifyItems, if_neg hp] at h
        exact ih used r h

/-- C8 amended: the parser emits the matched items (first occurrence of
each matching (order, normalized-name) key, with the table entry's exact
amount and its quantity when nonzero, else 1) followed by the unmatched
items, each carrying an equal share of the residual
`max(order total - matched amounts, 0)` and quantity 1; an order string
yielding no items is replaced by the single placeholder
`"Unknown Item"`. -/
theorem order_apportionment_amended (psd : List (String × ℚ × ℚ)) (o : OrderRow) :
    parseOrderItems psd o
      = (matchedOf psd o).map (fun r => (r.1, r.2.1, if r.2.2 = 0 then 1 else r.2.2))
        ++ (unmatchedOf psd o).map (fun i => (i, shareOf psd o, 1))
  ∧ (∀ r ∈ matchedOf psd o, lookupDict psd (itemKey o.orderNum r.1) = some r.2)
  ∧ (unmatchedOf psd o ≠ [] →
      shareOf psd o * (unmatchedOf psd o).length
        = max (o.amountReceived
            - ((matchedOf psd o).map (fun r => r.2.1)).foldr (· + ·) 0) 0)
  ∧ (((splitComma o.productDetails.data).map strip).filter (fun i => i ≠ "") = [] →
      orderItems o = ["Unknown Item"]) := by
  refine ⟨rfl, ?_, ?_, ?_⟩
  · intro r hr
    exact classify_matched_lookup psd o.orderNum (orderItems o) [] r hr
  · intro hne
    have h0 : (unmatchedOf psd o).length ≠ 0 := by
      simpa [List.length_eq_zero] using hne
    have hlen : ((unmatchedOf psd o).length : ℚ) ≠ 0 := Nat.cast_ne_zero.2 h0
    have hbe : (unmatchedOf psd o).isEmpty = false := by
      simpa [List.isEmpty_iff] using hne
    simp only [shareOf, hbe, Bool.false_eq_true, if_false]
    rw [div_mul_cancel₀ _ hlen]
  · intro hemp
    simp only [orderItems]
    rw [hemp]
    rfl

/-- C8 counterexample: order "A, A" with total 8 and a sales-detail
entry (amount 5, quantity 0) for its key: the first "A" is matched but
receives quantity 1, not the entry's quantity 0, and the second "A" is
treated as unmatched (the key is consumed) and receives the residual 3 —
not the entry's exact amount and quantity as the claim states for every
matching item. -/
theorem order_apportionment_counterexample :
    parseOrderItems psd8 order8 = [("A", 5, 1), ("A", 3, 1)]
  ∧ parseOrderItems psd8 order8 ≠ [("A", 5, 0), ("A", 5, 0)] := by
  have hm : matchedOf psd8 order8 = [("A", 5, 0)] := by decide
  have hu : unmatchedOf psd8 order8 = ["A"] := by decide
  have hs : shareOf psd8 order8 = 3 := by
    rw [shareOf, hm, hu]
    norm_num [order8]
  have h1 : parseOrderItems psd8 order8 = [("A", 5, 1), ("A", 3, 1)] := by
    rw [parseOrderItems, hm, hu, hs]
    norm_num
  refine ⟨h1, ?_⟩
  rw [h1]
  intro h
  simp only [List.cons.injEq, Prod.mk.injEq] at h
  exact absurd h.1.2.2 (by norm_num)

/-- Witness for the amended C8 at the concrete order. -/
theorem order_apportionment_amended_witness :
    parseOrderItems psd8 order8
      = (matchedOf psd8 order8).map (fun r => (r.1, r.2.1, if r.2.2 = 0 then 1 else r.2.2))
        ++ (unmatchedOf psd8 order8).map (fun i => (i, shareOf psd8 order8, 1))
  ∧ (∀ r ∈ matchedOf psd8 order8, lookupDict psd8 (itemKey order8.orderNum r.1) = some r.2)
  ∧ shareOf psd8 order8 * (unmatchedOf psd8 order8).length
      = max (order8.amountReceived
          - ((matchedOf psd8 order8).map (fun r => r.2.1)).foldr (· + ·) 0) 0 :=
  ⟨(order_apportionment_amended psd8 order8).1,
   (order_apportionment_amended psd8 order8).2.1,
   (order_apportionment_amended psd8 order8).2.2.1 (by decide)⟩

end SmartVending

namespace SmartVending

/-- C9 counterexample: a machine name carrying a mid-string bracketed
number (`"West [12] Bank"`, no directory entry) survives cleanup
verbatim, so the pipeline's output location retains a `[digits]`
substring — the fallback only strips a LEADING bracket prefix. -/
theorem location_bracket_counterexample :
    (processTransactions emptyMaps initStats [row9]).2.map Txn.location
      = ["West [12] Bank"]
  ∧ containsBracketDigits "West [12] Bank" = true := by decide

/-- C9 amended: the spec's concrete example does hold — with no
directory entry for either the location or the machine, raw machine
`"[21] West Bank 3743"` is cleaned to `"West Bank"` (leading bracketed
prefix and trailing 4-digit suffix stripped); the universal "no output
retains `[digits]`" part is refuted by the counterexample. -/
theorem west_bank_cleanup (locMap : List (String × String)) (loc : Option String)
    (h1 : lookupDict locMap (locCellStr loc) = none)
    (h2 : lookupDict locMap "[21] West Bank 3743" = none) :
    cleanLocation locMap loc "[21] West Bank 3743" = "West Bank" := by
  have hs : strip "[21] West Bank 3743" = "[21] West Bank 3743" := by decide
  have hh : locationHeuristic "[21] West Bank 3743" = "West Bank" := by decide
  simp only [cleanLocation, h1, hs, h2, hh]
  rw [if_neg (by decide : ¬ ("West Bank" : String) = "")]

/-- Witness for the amended C9. -/
theorem west_bank_cleanup_witness :
    cleanLocation [] (some "SomeLoc") "[21] West Bank 3743" = "West Bank" :=
  west_bank_cleanup [] (some "SomeLoc") (by decide) (by decide)

end SmartVending
